import Mathlib

/-!
Shallow embedding of the Whsper Stellar read-only query contract
(`src/contracts/whsper_stellar/src/lib.rs`).

The contract exposes four read-only entry points over the host's persistent
key-value storage: `get_pending_claim`, `get_claims_by_recipient`,
`get_claims_by_creator`, and `get_claim_window_config`.  The storage is
modelled as a record of partial maps, one per key namespace of the contract
(`(claim, id)`, `(claims_rc, recipient)`, `(claims_cr, creator)`, and the
`claim_cfg` singleton).  Addresses are opaque and modelled as naturals; the
u64/u32/i128 machine values are modelled as `Nat`/`Int` since the contract
performs no arithmetic on them besides `min`/`max` on the page limit.
-/

set_option autoImplicit false

/-- Maximum number of claims to return per page (pagination limit), from
`pub const MAX_PAGE_SIZE: u32 = 100`. -/
def MAX_PAGE_SIZE : Nat := 100

/-- Claim status, from `enum ClaimStatus`. -/
inductive ClaimStatus where
  | Pending
  | Claimed
  | Cancelled
deriving DecidableEq, Repr

/-- Claim window configuration, from `struct ClaimWindowConfig`. -/
structure ClaimWindowConfig where
  window_duration_secs : Nat
  min_claim_delay_secs : Nat
deriving DecidableEq, Repr

/-- The `Default` instance derived for `ClaimWindowConfig` in the source:
both fields zero. -/
def ClaimWindowConfig.default : ClaimWindowConfig :=
  { window_duration_secs := 0, min_claim_delay_secs := 0 }

/-- Pending claim record, from `struct PendingClaim`. -/
structure PendingClaim where
  id : Nat
  creator : Nat
  recipient : Nat
  amount : Int
  token : Nat
  status : ClaimStatus
  created_at : Nat
  claim_window_start : Nat
  claim_window_end : Nat
deriving DecidableEq, Repr

/-- Result type of `get_pending_claim`, from `enum GetClaimResult`. -/
inductive GetClaimResult where
  | Found (claim : PendingClaim)
  | NotFound
deriving DecidableEq, Repr

/-- A snapshot of the host's persistent storage, split by the contract's key
namespaces: `(CLAIM_KEY, id)`, `(CLAIMS_BY_RECIPIENT, addr)`,
`(CLAIMS_BY_CREATOR, addr)`, and the `CLAIM_WINDOW_CONFIG` singleton. -/
structure Storage where
  claims : Nat → Option PendingClaim
  claimsByRecipient : Nat → Option (List Nat)
  claimsByCreator : Nat → Option (List Nat)
  claimWindowConfig : Option ClaimWindowConfig

/-- `get_pending_claim`: look up the claim keyed by id; `Found` if present,
`NotFound` otherwise. -/
def get_pending_claim (st : Storage) (claim_id : Nat) : GetClaimResult :=
  match st.claims claim_id with
  | some claim => GetClaimResult.Found claim
  | none => GetClaimResult.NotFound

/-- The `for id in claim_ids.iter()` loop body of `get_claims_by_recipient`:
stop once `result` has reached `limit`, otherwise resolve the id via
`get_pending_claim`, keep the claim when found and passing the status
filter, and continue. -/
def recipientLoop (st : Storage) (limit : Nat) (include_all : Bool) :
    List Nat → List PendingClaim → List PendingClaim
  | [], result => result
  | id :: rest, result =>
    if result.length ≥ limit then
      result
    else
      match get_pending_claim st id with
      | GetClaimResult.Found claim =>
        if include_all || claim.status == ClaimStatus.Pending then
          recipientLoop st limit include_all rest (result ++ [claim])
        else
          recipientLoop st limit include_all rest result
      | GetClaimResult.NotFound => recipientLoop st limit include_all rest result

/-- `get_claims_by_recipient`: clamp the limit, default the flag, fetch the
by-recipient index (empty when absent), and run the pagination loop. -/
def get_claims_by_recipient (st : Storage) (recipient : Nat) (limit : Nat)
    (include_claimed_cancelled : Option Bool) : List PendingClaim :=
  let limit := max (min limit MAX_PAGE_SIZE) 1
  let include_all := include_claimed_cancelled.getD false
  let claim_ids := (st.claimsByRecipient recipient).getD []
  recipientLoop st limit include_all claim_ids []

/-- The `for i in 0..len` loop body of `get_claims_by_creator`: iterate over
positions, read `claim_ids.get(i)` (an `Option`), and process the id exactly
as the recipient loop does. -/
def creatorLoop (st : Storage) (limit : Nat) (include_all : Bool)
    (claim_ids : List Nat) : List Nat → List PendingClaim → List PendingClaim
  | [], result => result
  | i :: rest, result =>
    if result.length ≥ limit then
      result
    else
      match claim_ids[i]? with
      | some id =>
        match get_pending_claim st id with
        | GetClaimResult.Found claim =>
          if include_all || claim.status == ClaimStatus.Pending then
            creatorLoop st limit include_all claim_ids rest (result ++ [claim])
          else
            creatorLoop st limit include_all claim_ids rest result
        | GetClaimResult.NotFound =>
          creatorLoop st limit include_all claim_ids rest result
      | none => creatorLoop st limit include_all claim_ids rest result

/-- `get_claims_by_creator`: clamp the limit, default the flag, fetch the
by-creator index (empty when absent), and run the indexed pagination loop
over positions `0..len`. -/
def get_claims_by_creator (st : Storage) (creator : Nat) (limit : Nat)
    (include_claimed_cancelled : Option Bool) : List PendingClaim :=
  let limit := max (min limit MAX_PAGE_SIZE) 1
  let include_all := include_claimed_cancelled.getD false
  let claim_ids := (st.claimsByCreator creator).getD []
  creatorLoop st limit include_all claim_ids (List.range claim_ids.length) []

/-- `get_claim_window_config`: the singleton config, or the derived default
(all zeros) when unset. -/
def get_claim_window_config (st : Storage) : ClaimWindowConfig :=
  st.claimWindowConfig.getD ClaimWindowConfig.default

/-- One step of the walk performed by both pagination loops: resolve an id
via `get_pending_claim`, drop it when unresolvable, and keep the claim iff
`include_all` is set or its status is `Pending`. -/
def filterStep (st : Storage) (include_all : Bool) (id : Nat) :
    Option PendingClaim :=
  match get_pending_claim st id with
  | GetClaimResult.Found claim =>
    if include_all || claim.status == ClaimStatus.Pending then some claim else none
  | GetClaimResult.NotFound => none

/-- A concrete claim record used to build sample storage snapshots. -/
def exClaim (n : Nat) (s : ClaimStatus) : PendingClaim :=
  { id := n, creator := 1, recipient := 2, amount := 5, token := 3,
    status := s, created_at := 10, claim_window_start := 11,
    claim_window_end := 12 }

/-- A sample storage snapshot: claims 7 (Pending) and 8 (Claimed) stored,
both indices for recipient 2 / creator 1 list `[7, 9, 8]` where id 9 is a
dangling index entry, and no config record. -/
def exStorage : Storage :=
  { claims := fun n =>
      if n = 7 then some (exClaim 7 ClaimStatus.Pending)
      else if n = 8 then some (exClaim 8 ClaimStatus.Claimed)
      else none,
    claimsByRecipient := fun a => if a = 2 then some [7, 9, 8] else none,
    claimsByCreator := fun a => if a = 1 then some [7, 9, 8] else none,
    claimWindowConfig := none }

/-- The sample snapshot with the dangling id 9 removed from both indices;
its claim store is the same function as `exStorage`'s. -/
def exStorageClean : Storage :=
  { claims := exStorage.claims,
    claimsByRecipient := fun a => if a = 2 then some [7, 8] else none,
    claimsByCreator := fun a => if a = 1 then some [7, 8] else none,
    claimWindowConfig := some { window_duration_secs := 33,
                                min_claim_delay_secs := 4 } }

/-- The sample snapshot with only its config record changed: claim store and
both indices are the same functions as `exStorage`'s. -/
def exStorageAltCfg : Storage :=
  { exStorage with claimWindowConfig := some { window_duration_secs := 1,
                                               min_claim_delay_secs := 2 } }

/-- The pagination loop of `get_claims_by_recipient` returns the accumulator
followed by the filtered walk of the remaining ids, truncated at the room
left under the limit. -/
theorem recipientLoop_eq (st : Storage) (limit : Nat) (include_all : Bool) :
    ∀ (ids : List Nat) (acc : List PendingClaim),
      recipientLoop st limit include_all ids acc =
        acc ++ (ids.filterMap (filterStep st include_all)).take
          (limit - acc.length) := by
  intro ids
  induction ids with
  | nil => intro acc; simp [recipientLoop]
  | cons id rest ih =>
    intro acc
    by_cases hlim : acc.length ≥ limit
    · have h0 : limit - acc.length = 0 := Nat.sub_eq_zero_of_le hlim
      simp [recipientLoop, hlim, h0]
    · have hlt : acc.length < limit := Nat.lt_of_not_le hlim
      cases hres : st.claims id with
      | none =>
        have hstep : filterStep st include_all id = none := by
          simp [filterStep, get_pending_claim, hres]
        simp only [recipientLoop, if_neg hlim, get_pending_claim, hres]
        rw [ih acc]
        simp [List.filterMap_cons, hstep]
      | some claim =>
        have hgp : get_pending_claim st id = GetClaimResult.Found claim := by
          simp [get_pending_claim, hres]
        cases hkeep : (include_all || claim.status == ClaimStatus.Pending) with
        | true =>
          have hstep : filterStep st include_all id = some claim := by
            simp [filterStep, hgp, hkeep]
          simp only [recipientLoop, if_neg hlim, hgp, hkeep, if_pos]
          rw [ih (acc ++ [claim])]
          have h1 : limit - acc.length = (limit - (acc.length + 1)) + 1 := by omega
          simp [List.filterMap_cons, hstep, h1, List.take_succ_cons]
        | false =>
          have hstep : filterStep st include_all id = none := by
            simp [filterStep, hgp, hkeep]
          simp only [recipientLoop, if_neg hlim, hgp, hkeep]
          rw [ih acc]
          simp [List.filterMap_cons, hstep]

/-- The indexed loop of `get_claims_by_creator`, run over the positions
`s, s+1, …, len-1`, coincides with the iterator loop of
`get_claims_by_recipient` run over the ids from position `s` on. -/
theorem creatorLoop_eq_recipientLoop (st : Storage) (limit : Nat)
    (include_all : Bool) (claim_ids : List Nat) :
    ∀ (n s : Nat) (acc : List PendingClaim), s + n = claim_ids.length →
      creatorLoop st limit include_all claim_ids (List.range' s n) acc =
        recipientLoop st limit include_all (claim_ids.drop s) acc := by
  intro n
  induction n with
  | zero =>
    intro s acc hs
    have hd : claim_ids.drop s = [] := List.drop_eq_nil_of_le (by omega)
    simp [List.range', creatorLoop, hd, recipientLoop]
  | succ n ih =>
    intro s acc hs
    have hslt : s < claim_ids.length := by omega
    have hget : claim_ids[s]? = some claim_ids[s] := List.getElem?_eq_getElem hslt
    rw [List.range'_succ s n 1, List.drop_eq_getElem_cons hslt]
    by_cases hlim : acc.length ≥ limit
    · simp [creatorLoop, recipientLoop, hlim]
    · cases hres : st.claims claim_ids[s] with
      | none =>
        simp only [creatorLoop, recipientLoop, if_neg hlim, hget,
          get_pending_claim, hres]
        exact ih (s + 1) acc (by omega)
      | some claim =>
        cases hkeep : (include_all || claim.status == ClaimStatus.Pending) with
        | true =>
          simp only [creatorLoop, recipientLoop, if_neg hlim, hget,
            get_pending_claim, hres, hkeep, if_pos]
          exact ih (s + 1) (acc ++ [claim]) (by omega)
        | false =>
          simp only [creatorLoop, recipientLoop, if_neg hlim, hget,
            get_pending_claim, hres, hkeep, Bool.false_eq_true, if_false]
          exact ih (s + 1) acc (by omega)

/-- `get_claims_by_recipient` is the clamped-limit truncation of the filtered
walk of the by-recipient index. -/
theorem get_claims_by_recipient_eq (st : Storage) (recipient limit : Nat)
    (inc : Option Bool) :
    get_claims_by_recipient st recipient limit inc =
      (((st.claimsByRecipient recipient).getD []).filterMap
          (filterStep st (inc.getD false))).take
        (max (min limit MAX_PAGE_SIZE) 1) := by
  simp only [get_claims_by_recipient]
  rw [recipientLoop_eq]
  simp

/-- `get_claims_by_creator` is the clamped-limit truncation of the filtered
walk of the by-creator index. -/
theorem get_claims_by_creator_eq (st : Storage) (creator limit : Nat)
    (inc : Option Bool) :
    get_claims_by_creator st creator limit inc =
      (((st.claimsByCreator creator).getD []).filterMap
          (filterStep st (inc.getD false))).take
        (max (min limit MAX_PAGE_SIZE) 1) := by
  simp only [get_claims_by_creator]
  rw [List.range_eq_range' ((st.claimsByCreator creator).getD []).length,
    creatorLoop_eq_recipientLoop st (max (min limit MAX_PAGE_SIZE) 1)
      (inc.getD false) ((st.claimsByCreator creator).getD [])
      ((st.claimsByCreator creator).getD []).length 0 [] (by simp),
    List.drop_zero, recipientLoop_eq]
  simp

/-- Any element of `l.filterMap f` originates from some element of `l`. -/
theorem filterMap_origin {α β : Type} (f : α → Option β) :
    ∀ (l : List α) (k : Nat) (c : β), (l.filterMap f)[k]? = some c →
      ∃ (q : Nat) (x : α), l[q]? = some x ∧ f x = some c := by
  intro l
  induction l with
  | nil => intro k c h; simp at h
  | cons a l ih =>
    intro k c h
    cases hfa : f a with
    | none =>
      simp only [List.filterMap_cons, hfa] at h
      obtain ⟨q, x, hq, hx⟩ := ih k c h
      exact ⟨q + 1, x, by simpa using hq, hx⟩
    | some b =>
      simp only [List.filterMap_cons, hfa] at h
      cases k with
      | zero =>
        rw [List.getElem?_cons_zero] at h
        exact ⟨0, a, List.getElem?_cons_zero, by rw [hfa, h]⟩
      | succ k =>
        rw [List.getElem?_cons_succ] at h
        obtain ⟨q, x, hq, hx⟩ := ih k c h
        exact ⟨q + 1, x, by simpa using hq, hx⟩

/-- Two elements of `l.filterMap f` at positions `i < j` originate from two
elements of `l` at positions `p < q`: `filterMap` preserves relative order. -/
theorem filterMap_pos_mono {α β : Type} (f : α → Option β) :
    ∀ (l : List α) (i j : Nat) (ci cj : β), i < j →
      (l.filterMap f)[i]? = some ci → (l.filterMap f)[j]? = some cj →
      ∃ (p q : Nat), p < q ∧ ∃ (xp xq : α), l[p]? = some xp ∧ l[q]? = some xq ∧
        f xp = some ci ∧ f xq = some cj := by
  intro l
  induction l with
  | nil => intro i j ci cj hij hi hj; simp at hi
  | cons a l ih =>
    intro i j ci cj hij hi hj
    cases hfa : f a with
    | none =>
      simp only [List.filterMap_cons, hfa] at hi hj
      obtain ⟨p, q, hpq, xp, xq, hp, hq, hfp, hfq⟩ := ih i j ci cj hij hi hj
      exact ⟨p + 1, q + 1, by omega, xp, xq, by simpa using hp,
        by simpa using hq, hfp, hfq⟩
    | some b =>
      simp only [List.filterMap_cons, hfa] at hi hj
      obtain ⟨j', rfl⟩ : ∃ j', j = j' + 1 := ⟨j - 1, by omega⟩
      rw [List.getElem?_cons_succ] at hj
      cases i with
      | zero =>
        rw [List.getElem?_cons_zero] at hi
        obtain ⟨q, xq, hq, hfq⟩ := filterMap_origin f l j' cj hj
        exact ⟨0, q + 1, by omega, a, xq, List.getElem?_cons_zero,
          by simpa using hq, by rw [hfa, hi], hfq⟩
      | succ i' =>
        rw [List.getElem?_cons_succ] at hi
        obtain ⟨p, q, hpq, xp, xq, hp, hq, hfp, hfq⟩ :=
          ih i' j' ci cj (by omega) hi hj
        exact ⟨p + 1, q + 1, by omega, xp, xq, by simpa using hp,
          by simpa using hq, hfp, hfq⟩

/-- C1: for every storage snapshot, owner, limit and include-terminal flag,
the output of `get_claims_by_recipient` (and likewise `get_claims_by_creator`)
equals the truncation, at the effective limit, of the sequence obtained by
walking the owner's stored index id-sequence in insertion order, resolving
each id via `get_pending_claim`, dropping unresolvable ids and keeping a
claim iff the flag is set or its status is `Pending` (the walk step is
`filterStep`); consequently any two result positions `i < j` originate from
two index positions `p < q`, so insertion order is preserved and no
re-sorting occurs. -/
theorem C1_pagination_is_truncated_walk (st : Storage) (owner limit : Nat)
    (inc : Option Bool) :
    (get_claims_by_recipient st owner limit inc =
      (((st.claimsByRecipient owner).getD []).filterMap
          (filterStep st (inc.getD false))).take
        (max (min limit MAX_PAGE_SIZE) 1)) ∧
    (get_claims_by_creator st owner limit inc =
      (((st.claimsByCreator owner).getD []).filterMap
          (filterStep st (inc.getD false))).take
        (max (min limit MAX_PAGE_SIZE) 1)) ∧
    (∀ (i j : Nat) (ci cj : PendingClaim), i < j →
      (get_claims_by_recipient st owner limit inc)[i]? = some ci →
      (get_claims_by_recipient st owner limit inc)[j]? = some cj →
      ∃ (p q : Nat), p < q ∧ ∃ (xp xq : Nat),
        ((st.claimsByRecipient owner).getD [])[p]? = some xp ∧
        ((st.claimsByRecipient owner).getD [])[q]? = some xq ∧
        filterStep st (inc.getD false) xp = some ci ∧
        filterStep st (inc.getD false) xq = some cj) := by
  refine ⟨get_claims_by_recipient_eq st owner limit inc,
    get_claims_by_creator_eq st owner limit inc, ?_⟩
  intro i j ci cj hij hi hj
  rw [get_claims_by_recipient_eq] at hi hj
  have hjlt : j < max (min limit MAX_PAGE_SIZE) 1 := by
    have := (List.getElem?_eq_some.mp hj).1
    have := List.length_take (max (min limit MAX_PAGE_SIZE) 1)
      ((((st.claimsByRecipient owner).getD []).filterMap
        (filterStep st (inc.getD false))))
    omega
  rw [List.getElem?_take, if_pos (by omega)] at hi
  rw [List.getElem?_take, if_pos hjlt] at hj
  exact filterMap_pos_mono (filterStep st (inc.getD false))
    ((st.claimsByRecipient owner).getD []) i j ci cj hij hi hj

/-- C2: the effective limit used by both pagination entry points is
`clamp(limit, 1, 100)`: the result is the filtered walk truncated at
`min (max limit 1) 100`, a raw limit of 0 behaves as 1 (whenever at least
one claim passes the filter, limit 0 returns exactly one claim), and any
raw limit above 100 behaves as 100. -/
theorem C2_effective_limit_is_clamp (st : Storage) (owner limit : Nat)
    (inc : Option Bool) :
    (get_claims_by_recipient st owner limit inc =
      (((st.claimsByRecipient owner).getD []).filterMap
          (filterStep st (inc.getD false))).take (min (max limit 1) 100)) ∧
    (get_claims_by_creator st owner limit inc =
      (((st.claimsByCreator owner).getD []).filterMap
          (filterStep st (inc.getD false))).take (min (max limit 1) 100)) ∧
    ((((st.claimsByRecipient owner).getD []).filterMap
        (filterStep st (inc.getD false))) ≠ [] →
      (get_claims_by_recipient st owner 0 inc).length = 1) ∧
    ((((st.claimsByCreator owner).getD []).filterMap
        (filterStep st (inc.getD false))) ≠ [] →
      (get_claims_by_creator st owner 0 inc).length = 1) ∧
    (100 < limit →
      get_claims_by_recipient st owner limit inc =
        get_claims_by_recipient st owner 100 inc ∧
      get_claims_by_creator st owner limit inc =
        get_claims_by_creator st owner 100 inc) := by
  have hclamp : max (min limit MAX_PAGE_SIZE) 1 = min (max limit 1) 100 := by
    simp only [MAX_PAGE_SIZE]; omega
  refine ⟨by rw [get_claims_by_recipient_eq, hclamp],
    by rw [get_claims_by_creator_eq, hclamp], ?_, ?_, ?_⟩
  · intro hne
    rw [get_claims_by_recipient_eq]
    have h1 : max (min 0 MAX_PAGE_SIZE) 1 = 1 := by simp [MAX_PAGE_SIZE]
    rw [h1]
    cases hl : (((st.claimsByRecipient owner).getD []).filterMap
        (filterStep st (inc.getD false))) with
    | nil => exact absurd hl hne
    | cons c cs => simp
  · intro hne
    rw [get_claims_by_creator_eq]
    have h1 : max (min 0 MAX_PAGE_SIZE) 1 = 1 := by simp [MAX_PAGE_SIZE]
    rw [h1]
    cases hl : (((st.claimsByCreator owner).getD []).filterMap
        (filterStep st (inc.getD false))) with
    | nil => exact absurd hl hne
    | cons c cs => simp
  · intro hgt
    have hcap : max (min limit MAX_PAGE_SIZE) 1 =
        max (min 100 MAX_PAGE_SIZE) 1 := by
      simp only [MAX_PAGE_SIZE]; omega
    constructor
    · rw [get_claims_by_recipient_eq, get_claims_by_recipient_eq, hcap]
    · rw [get_claims_by_creator_eq, get_claims_by_creator_eq, hcap]

/-- C2 witness: on the sample snapshot, a raw limit of 0 with a nonempty
filtered walk yields exactly one claim, and limit 101 behaves as 100. -/
theorem C2_effective_limit_is_clamp_witness :
    (((exStorage.claimsByRecipient 2).getD []).filterMap
        (filterStep exStorage false)) ≠ [] ∧
    (get_claims_by_recipient exStorage 2 0 none).length = 1 ∧
    (100 < 101 ∧
      get_claims_by_recipient exStorage 2 101 none =
        get_claims_by_recipient exStorage 2 100 none) := by
  refine ⟨by decide, ?_, by decide,
    ((C2_effective_limit_is_clamp exStorage 2 101 none).2.2.2.2 (by decide)).1⟩
  exact (C2_effective_limit_is_clamp exStorage 2 0 none).2.2.1 (by decide)

/-- C3: `get_pending_claim` returns `NotFound` exactly when no claim record
is stored under the id, returns `Found` carrying exactly the stored record
when one is, and always returns one of these two outcomes (it has no error
case). -/
theorem C3_get_pending_claim_lookup (st : Storage) (id : Nat) :
    (get_pending_claim st id = GetClaimResult.NotFound ↔ st.claims id = none) ∧
    (∀ claim, get_pending_claim st id = GetClaimResult.Found claim ↔
      st.claims id = some claim) ∧
    (get_pending_claim st id = GetClaimResult.NotFound ∨
      ∃ claim, get_pending_claim st id = GetClaimResult.Found claim) := by
  cases hres : st.claims id with
  | none => simp [get_pending_claim, hres]
  | some claim => simp [get_pending_claim, hres]

/-- C1 witness: on the sample snapshot with the include-terminal flag set,
positions 0 and 1 of the result originate from ordered index positions. -/
theorem C1_pagination_is_truncated_walk_witness :
    (0 : Nat) < 1 ∧
    (get_claims_by_recipient exStorage 2 5 (some true))[0]? =
      some (exClaim 7 ClaimStatus.Pending) ∧
    (get_claims_by_recipient exStorage 2 5 (some true))[1]? =
      some (exClaim 8 ClaimStatus.Claimed) ∧
    ∃ (p q : Nat), p < q ∧ ∃ (xp xq : Nat),
      ((exStorage.claimsByRecipient 2).getD [])[p]? = some xp ∧
      ((exStorage.claimsByRecipient 2).getD [])[q]? = some xq ∧
      filterStep exStorage ((some true : Option Bool).getD false) xp =
        some (exClaim 7 ClaimStatus.Pending) ∧
      filterStep exStorage ((some true : Option Bool).getD false) xq =
        some (exClaim 8 ClaimStatus.Claimed) :=
  ⟨by decide, by decide, by decide,
    (C1_pagination_is_truncated_walk exStorage 2 5 (some true)).2.2 0 1
      (exClaim 7 ClaimStatus.Pending) (exClaim 8 ClaimStatus.Claimed)
      (by decide) (by decide) (by decide)⟩

/-- With the include-terminal flag set, the walk step keeps every resolvable
claim: it coincides with the raw claim store lookup. -/
theorem filterStep_true (st : Storage) : filterStep st true = st.claims := by
  funext id
  cases hres : st.claims id <;> simp [filterStep, get_pending_claim, hres]

/-- With the include-terminal flag clear, the walk step only ever yields
claims whose status is `Pending`. -/
theorem filterStep_false_pending (st : Storage) (id : Nat)
    (claim : PendingClaim) (h : filterStep st false id = some claim) :
    claim.status = ClaimStatus.Pending := by
  cases hres : st.claims id with
  | none => simp [filterStep, get_pending_claim, hres] at h
  | some c =>
    simp only [filterStep, get_pending_claim, hres, Bool.false_or] at h
    by_cases hp : (c.status == ClaimStatus.Pending) = true
    · rw [if_pos hp] at h
      cases h
      exact beq_iff_eq.mp hp
    · rw [if_neg hp] at h
      exact absurd h (by simp)

/-- The walk step depends on the snapshot only through its claim store. -/
theorem filterStep_congr (st st' : Storage) (h : st.claims = st'.claims)
    (b : Bool) : filterStep st b = filterStep st' b := by
  funext id
  simp [filterStep, get_pending_claim, h]

/-- An id with no stored claim record is dropped by the walk step. -/
theorem filterStep_none (st : Storage) (b : Bool) (id : Nat)
    (h : st.claims id = none) : filterStep st b id = none := by
  simp [filterStep, get_pending_claim, h]

/-- C4: when the include-terminal flag is omitted or false, every returned
claim of either pagination entry point has status `Pending`; when the flag
is true the walk step keeps every resolvable claim regardless of status, so
the result is the truncated unfiltered resolution of the index. -/
theorem C4_terminal_filter (st : Storage) (owner limit : Nat)
    (inc : Option Bool) :
    ((inc = none ∨ inc = some false) →
      (∀ claim ∈ get_claims_by_recipient st owner limit inc,
        claim.status = ClaimStatus.Pending) ∧
      (∀ claim ∈ get_claims_by_creator st owner limit inc,
        claim.status = ClaimStatus.Pending)) ∧
    (∀ id, filterStep st true id = st.claims id) ∧
    (get_claims_by_recipient st owner limit (some true) =
      (((st.claimsByRecipient owner).getD []).filterMap st.claims).take
        (max (min limit MAX_PAGE_SIZE) 1)) ∧
    (get_claims_by_creator st owner limit (some true) =
      (((st.claimsByCreator owner).getD []).filterMap st.claims).take
        (max (min limit MAX_PAGE_SIZE) 1)) := by
  refine ⟨?_, fun id => by rw [filterStep_true], ?_, ?_⟩
  · intro hinc
    have hfalse : inc.getD false = false := by
      rcases hinc with h | h <;> simp [h]
    constructor
    · intro claim hm
      rw [get_claims_by_recipient_eq, hfalse] at hm
      obtain ⟨id, _, hid⟩ :=
        List.mem_filterMap.mp (List.mem_of_mem_take hm)
      exact filterStep_false_pending st id claim hid
    · intro claim hm
      rw [get_claims_by_creator_eq, hfalse] at hm
      obtain ⟨id, _, hid⟩ :=
        List.mem_filterMap.mp (List.mem_of_mem_take hm)
      exact filterStep_false_pending st id claim hid
  · rw [get_claims_by_recipient_eq]
    simp [filterStep_true]
  · rw [get_claims_by_creator_eq]
    simp [filterStep_true]

/-- C4 witness: on the sample snapshot with the flag omitted, every claim in
both results is `Pending`. -/
theorem C4_terminal_filter_witness :
    ((none : Option Bool) = none ∨ (none : Option Bool) = some false) ∧
    ((∀ claim ∈ get_claims_by_recipient exStorage 2 5 none,
        claim.status = ClaimStatus.Pending) ∧
      (∀ claim ∈ get_claims_by_creator exStorage 1 5 none,
        claim.status = ClaimStatus.Pending)) :=
  ⟨Or.inl rfl,
    ((C4_terminal_filter exStorage 2 5 none).1 (Or.inl rfl)).1,
    ((C4_terminal_filter exStorage 1 5 none).1 (Or.inl rfl)).2⟩

/-- C5: a dangling index entry (an id with no stored claim record) is
skipped silently: the result over an index containing it equals the result
over the same index with that entry removed, given the same claim store. -/
theorem C5_dangling_entry_skipped (st st' : Storage) (owner limit : Nat)
    (inc : Option Bool) (ids1 ids2 : List Nat) (badId : Nat)
    (hclaims : st.claims = st'.claims) (hbad : st.claims badId = none) :
    (st.claimsByRecipient owner = some (ids1 ++ badId :: ids2) →
      st'.claimsByRecipient owner = some (ids1 ++ ids2) →
      get_claims_by_recipient st owner limit inc =
        get_claims_by_recipient st' owner limit inc) ∧
    (st.claimsByCreator owner = some (ids1 ++ badId :: ids2) →
      st'.claimsByCreator owner = some (ids1 ++ ids2) →
      get_claims_by_creator st owner limit inc =
        get_claims_by_creator st' owner limit inc) := by
  have hstep : filterStep st (inc.getD false) badId = none :=
    filterStep_none st (inc.getD false) badId hbad
  constructor
  · intro hidx hidx'
    rw [get_claims_by_recipient_eq, get_claims_by_recipient_eq, hidx, hidx',
      ← filterStep_congr st st' hclaims]
    simp [List.filterMap_append, List.filterMap_cons, hstep]
  · intro hidx hidx'
    rw [get_claims_by_creator_eq, get_claims_by_creator_eq, hidx, hidx',
      ← filterStep_congr st st' hclaims]
    simp [List.filterMap_append, List.filterMap_cons, hstep]

/-- C5 witness: dropping the dangling id 9 from the sample indices leaves
both results unchanged. -/
theorem C5_dangling_entry_skipped_witness :
    exStorage.claims = exStorageClean.claims ∧
    exStorage.claims 9 = none ∧
    exStorage.claimsByRecipient 2 = some ([7] ++ 9 :: [8]) ∧
    exStorageClean.claimsByRecipient 2 = some ([7] ++ [8]) ∧
    get_claims_by_recipient exStorage 2 10 (some true) =
      get_claims_by_recipient exStorageClean 2 10 (some true) :=
  ⟨rfl, by decide, by decide, by decide,
    (C5_dangling_entry_skipped exStorage exStorageClean 2 10 (some true)
      [7] [8] 9 rfl (by decide)).1 (by decide) (by decide)⟩

/-- C6: both pagination entry points return at most
`min (max limit 1) 100` claims, and when the filtered walk of the index is
empty (in particular when there is no data) they return the empty sequence
rather than an error. -/
theorem C6_length_bounded (st : Storage) (owner limit : Nat)
    (inc : Option Bool) :
    ((get_claims_by_recipient st owner limit inc).length ≤
      min (max limit 1) 100) ∧
    ((get_claims_by_creator st owner limit inc).length ≤
      min (max limit 1) 100) ∧
    ((((st.claimsByRecipient owner).getD []).filterMap
        (filterStep st (inc.getD false))) = [] →
      get_claims_by_recipient st owner limit inc = []) ∧
    ((((st.claimsByCreator owner).getD []).filterMap
        (filterStep st (inc.getD false))) = [] →
      get_claims_by_creator st owner limit inc = []) := by
  have hclamp : max (min limit MAX_PAGE_SIZE) 1 = min (max limit 1) 100 := by
    simp only [MAX_PAGE_SIZE]; omega
  refine ⟨?_, ?_, ?_, ?_⟩
  · rw [get_claims_by_recipient_eq, List.length_take]
    omega
  · rw [get_claims_by_creator_eq, List.length_take]
    omega
  · intro hempty
    rw [get_claims_by_recipient_eq, hempty]
    simp
  · intro hempty
    rw [get_claims_by_creator_eq, hempty]
    simp

/-- C6 witness: on the sample snapshot the length bound holds at limit 5,
and an owner with an empty filtered walk gets the empty sequence. -/
theorem C6_length_bounded_witness :
    ((get_claims_by_recipient exStorage 2 5 (some true)).length ≤
      min (max 5 1) 100) ∧
    (((exStorage.claimsByRecipient 50).getD []).filterMap
        (filterStep exStorage false)) = [] ∧
    get_claims_by_recipient exStorage 50 5 none = [] :=
  ⟨(C6_length_bounded exStorage 2 5 (some true)).1, by decide,
    (C6_length_bounded exStorage 50 5 none).2.2.1 (by decide)⟩

/-- C7: an owner with no entry in the relevant index gets the empty
sequence, for any limit and any include-terminal flag. -/
theorem C7_unknown_owner_empty (st : Storage) (owner limit : Nat)
    (inc : Option Bool) :
    (st.claimsByRecipient owner = none →
      get_claims_by_recipient st owner limit inc = []) ∧
    (st.claimsByCreator owner = none →
      get_claims_by_creator st owner limit inc = []) := by
  constructor
  · intro hnone
    rw [get_claims_by_recipient_eq, hnone]
    simp
  · intro hnone
    rw [get_claims_by_creator_eq, hnone]
    simp

/-- C7 witness: address 50 has no index entry in the sample snapshot and
both entry points return the empty sequence on it. -/
theorem C7_unknown_owner_empty_witness :
    exStorage.claimsByRecipient 50 = none ∧
    exStorage.claimsByCreator 50 = none ∧
    get_claims_by_recipient exStorage 50 5 none = [] ∧
    get_claims_by_creator exStorage 50 5 none = [] :=
  ⟨by decide, by decide,
    (C7_unknown_owner_empty exStorage 50 5 none).1 (by decide),
    (C7_unknown_owner_empty exStorage 50 5 none).2 (by decide)⟩

/-- C8: `get_claim_window_config` returns the zero-valued default when no
config record is stored, and the stored record unchanged (no validation)
when one is. -/
theorem C8_config_default_fallback (st : Storage) :
    (st.claimWindowConfig = none →
      get_claim_window_config st =
        { window_duration_secs := 0, min_claim_delay_secs := 0 }) ∧
    (∀ cfg, st.claimWindowConfig = some cfg →
      get_claim_window_config st = cfg) := by
  constructor
  · intro hnone
    simp [get_claim_window_config, hnone, ClaimWindowConfig.default]
  · intro cfg hsome
    simp [get_claim_window_config, hsome]

/-- C8 witness: the empty-config sample yields the zero default and a
stored config (including one no validation would accept blindly) is
returned as-is. -/
theorem C8_config_default_fallback_witness :
    exStorage.claimWindowConfig = none ∧
    get_claim_window_config exStorage =
      { window_duration_secs := 0, min_claim_delay_secs := 0 } ∧
    exStorageClean.claimWindowConfig =
      some { window_duration_secs := 33, min_claim_delay_secs := 4 } ∧
    get_claim_window_config exStorageClean =
      { window_duration_secs := 33, min_claim_delay_secs := 4 } :=
  ⟨by decide, (C8_config_default_fallback exStorage).1 (by decide),
    by decide,
    (C8_config_default_fallback exStorageClean).2
      { window_duration_secs := 33, min_claim_delay_secs := 4 } (by decide)⟩

/-- C9: every operation is a pure function of its arguments and the storage
snapshot, and depends only on the snapshot components it reads: the claim
store for `get_pending_claim`; the claim store and the relevant index for
the pagination entry points; the config record for
`get_claim_window_config`.  Two invocations against snapshots agreeing on
those components produce identical outputs. -/
theorem C9_deterministic (st1 st2 : Storage) :
    (st1.claims = st2.claims →
      ∀ id, get_pending_claim st1 id = get_pending_claim st2 id) ∧
    (st1.claims = st2.claims →
      st1.claimsByRecipient = st2.claimsByRecipient →
      ∀ owner limit inc,
        get_claims_by_recipient st1 owner limit inc =
          get_claims_by_recipient st2 owner limit inc) ∧
    (st1.claims = st2.claims →
      st1.claimsByCreator = st2.claimsByCreator →
      ∀ owner limit inc,
        get_claims_by_creator st1 owner limit inc =
          get_claims_by_creator st2 owner limit inc) ∧
    (st1.claimWindowConfig = st2.claimWindowConfig →
      get_claim_window_config st1 = get_claim_window_config st2) := by
  refine ⟨?_, ?_, ?_, ?_⟩
  · intro h id
    simp [get_pending_claim, h]
  · intro h hidx owner limit inc
    rw [get_claims_by_recipient_eq, get_claims_by_recipient_eq, hidx,
      filterStep_congr st1 st2 h]
  · intro h hidx owner limit inc
    rw [get_claims_by_creator_eq, get_claims_by_creator_eq, hidx,
      filterStep_congr st1 st2 h]
  · intro h
    simp [get_claim_window_config, h]

/-- C9 witness: a snapshot differing from the sample only in its config
record gives the same pagination results, and the same snapshot gives the
same lookup result. -/
theorem C9_deterministic_witness :
    exStorage.claims = exStorageAltCfg.claims ∧
    exStorage.claimsByRecipient = exStorageAltCfg.claimsByRecipient ∧
    get_claims_by_recipient exStorage 2 5 none =
      get_claims_by_recipient exStorageAltCfg 2 5 none ∧
    get_pending_claim exStorage 7 = get_pending_claim exStorage 7 :=
  ⟨rfl, rfl,
    (C9_deterministic exStorage exStorageAltCfg).2.1 rfl rfl 2 5 none,
    (C9_deterministic exStorage exStorage).1 rfl 7⟩

/-- C10: despite their different loop styles, the two pagination entry
points compute the same function of the index id-sequence, claim store,
limit and flag: whenever the by-recipient index of address `a` equals the
by-creator index of address `b` in the same snapshot, the two results are
equal. -/
theorem C10_recipient_creator_agree (st : Storage) (a b limit : Nat)
    (inc : Option Bool)
    (h : st.claimsByRecipient a = st.claimsByCreator b) :
    get_claims_by_recipient st a limit inc =
      get_claims_by_creator st b limit inc := by
  rw [get_claims_by_recipient_eq, get_claims_by_creator_eq, h]

/-- C10 witness: in the sample snapshot, recipient 2 and creator 1 carry
the same index sequence, and the two entry points agree on them. -/
theorem C10_recipient_creator_agree_witness :
    exStorage.claimsByRecipient 2 = exStorage.claimsByCreator 1 ∧
    get_claims_by_recipient exStorage 2 5 (some true) =
      get_claims_by_creator exStorage 1 5 (some true) :=
  ⟨by decide,
    C10_recipient_creator_agree exStorage 2 1 5 (some true) (by decide)⟩
